import Mathlib

/-!
Verification of the tabone/websocket library (RFC 6455 WebSocket implementation
in Go) against its natural-language specification.

The Go source is shallowly embedded: byte slices become `List Nat` (each entry
a byte value), fallible operations return `Except`/`Option`, and the socket's
mutable state is threaded explicitly.  Definitions mirror the corresponding Go
functions; the function names are kept where Lean allows.
-/

set_option maxRecDepth 4096

/-! ## Codec primitives (utils.go / frame_utils.go) -/

/-- WebSocket opcodes, as in the Go constant block. -/
def OpcodeContinuation : Nat := 0

def OpcodeText : Nat := 1

def OpcodeBinary : Nat := 2

def OpcodeClose : Nat := 8

def OpcodePing : Nat := 9

def OpcodePong : Nat := 10

/-- WebSocket close status codes (RFC 6455 section 7.4.1). -/
def CloseNormalClosure : Nat := 1000

def CloseGoingAway : Nat := 1001

def CloseProtocolError : Nat := 1002

def CloseUnsupportedData : Nat := 1003

def CloseNoStatusReceived : Nat := 1005

def CloseAbnormalClosure : Nat := 1006

def CloseInvalidFramePayloadData : Nat := 1007

def ClosePolicyViolation : Nat := 1008

def CloseMessageTooBig : Nat := 1009

def CloseMandatoryExtension : Nat := 1010

def CloseInternalServerErr : Nat := 1011

def CloseTLSHandshake : Nat := 1015

/-- Embeds Go `opcodeExist`: whether the opcode number is a defined opcode. -/
def opcodeExist (i : Nat) : Bool :=
  i == OpcodeContinuation || i == OpcodeText || i == OpcodeBinary ||
  i == OpcodeClose || i == OpcodePing || i == OpcodePong

/-- Embeds Go `closeErrorExist`: whether the close status code is recognized. -/
def closeErrorExist (i : Nat) : Bool :=
  i == CloseNormalClosure || i == CloseGoingAway || i == CloseProtocolError ||
  i == CloseUnsupportedData || i == CloseNoStatusReceived ||
  i == CloseAbnormalClosure || i == CloseInvalidFramePayloadData ||
  i == ClosePolicyViolation || i == CloseMessageTooBig ||
  i == CloseMandatoryExtension || i == CloseInternalServerErr ||
  i == CloseTLSHandshake

/-- Embeds Go `validateKey`: a masking key is 0 or 4 bytes long. -/
def validateKey (k : List Nat) : Bool :=
  k.length == 0 || k.length == 4

/-- Embeds Go `validatePayload`: payload must be at most 2^63 - 1 bytes. -/
def validatePayload (p : List Nat) : Bool :=
  p.length ≤ 9223372036854775807

/-- Helper for Go `mask`: XOR each byte with `k[i % 4]`, `i` the running
index.  Mirrors the loop `for i := range p { p[i] ^= k[i%4] }`. -/
def maskAux (k : List Nat) (i : Nat) : List Nat → List Nat
  | [] => []
  | v :: rest => (v ^^^ k.getD (i % 4) 0) :: maskAux k (i + 1) rest

/-- Embeds Go `mask`: mask or unmask payload bytes with a 4-byte key.  The Go
function mutates its argument in place; the embedding returns the new bytes. -/
def mask (p k : List Nat) : List Nat :=
  maskAux k 0 p

/-- Big-endian byte encoding of `n` into `k` bytes; embeds
`binary.BigEndian.PutUint16` / `PutUint64` (the caller supplies the
truncated value, as the Go conversions `uint16(l)` / `uint64(l)` do). -/
def beBytes : Nat → Nat → List Nat
  | 0, _ => []
  | k + 1, n => beBytes k (n / 256) ++ [n % 256]

/-- UTF-8 bytes of a string; the reason strings in this library are ASCII, so
this is the code-point sequence. -/
def strBytes (s : String) : List Nat :=
  s.data.map Char.toNat

/-- Stream-level semantics of Go `readFromBuffer` on a buffered reader: on
success it consumes and returns exactly the first `l` bytes of the stream
(`none` models an I/O error when the stream is too short).  The chunked
execution model of the same Go function is `readFromBufferChunked` below. -/
def readFromBuffer (l : Nat) (s : List Nat) : Option (List Nat × List Nat) :=
  if l ≤ s.length then some (s.take l, s.drop l) else none

/-! ## CloseError (errors.go) -/

/-- Embeds the Go `CloseError` struct (`Code int`, `Reason string`).  The code
values used by the library are non-negative, so `Code` is a `Nat`. -/
structure CloseError where
  Code : Nat
  Reason : String
deriving DecidableEq, Repr

/-- Embeds Go `CloseError.toBytesCode`: the 2-byte big-endian encoding of
`uint16(c.Code)`. -/
def CloseError.toBytesCode (c : CloseError) : List Nat :=
  beBytes 2 (c.Code % 65536)

/-- Embeds Go `CloseError.ToBytes`.  Returns the encoded bytes together with
the error (`some msg`) the Go version returns alongside them.  The Go code
recursively encodes a fresh `{1005, "no status recieved"}` value on an invalid
code; since that code is valid, the recursion is unfolded once here. -/
def CloseError.ToBytes (c : CloseError) : List Nat × Option String :=
  if closeErrorExist c.Code = false then
    let n : CloseError := { Code := CloseNoStatusReceived, Reason := "no status recieved" }
    (n.toBytesCode ++ strBytes n.Reason, some "invalid error code")
  else
    (c.toBytesCode ++ strBytes c.Reason, none)

/-! ## Frame codec (frame.go) -/

/-- Embeds the Go `frame` struct. -/
structure frame where
  fin : Bool
  opcode : Nat
  masked : Bool
  length : Nat
  key : List Nat
  payload : List Nat
deriving DecidableEq, Repr

/-- Errors produced while decoding a frame: an underlying I/O error, or a
protocol violation carried as a `CloseError`. -/
inductive ReadErr where
  | io : ReadErr
  | ce : CloseError → ReadErr
deriving DecidableEq, Repr

/-- Embeds Go `frame.readInitial`: parse the first two bytes (fin, RSV bits,
opcode, mask bit, 7-bit length marker). -/
def frame.readInitial (f : frame) (s : List Nat) : Except ReadErr (frame × List Nat) :=
  match readFromBuffer 2 s with
  | none => .error .io
  | some (p, s) =>
    let b0 := p.getD 0 0
    let b1 := p.getD 1 0
    let f := if b0 >>> 7 == 1 then { f with fin := true } else f
    if b0 &&& 112 != 0 then
      .error (.ce { Code := CloseProtocolError, Reason := "no support for extensions" })
    else
      let f := { f with opcode := b0 &&& 15 }
      if opcodeExist f.opcode = false then
        .error (.ce { Code := CloseProtocolError,
                      Reason := "unsupported opcode: " ++ toString f.opcode })
      else
        let f := if b1 >>> 7 == 1 then { f with masked := true } else f
        .ok ({ f with length := b1 &&& 127 }, s)

/-- Embeds Go `frame.readLength`: when the 7-bit marker is 126 (resp. 127),
read 2 (resp. 8) further bytes, combine them big-endian by shifting, and clear
the most significant bit. -/
def frame.readLength (f : frame) (s : List Nat) : Except ReadErr (frame × List Nat) :=
  if f.length ≤ 125 then .ok (f, s)
  else
    let l : Nat := if f.length == 127 then 8 else 2
    match readFromBuffer l s with
    | none => .error .io
    | some (u, s) =>
      let len := u.foldl (fun acc v => (acc <<< 8) + v) 0
      .ok ({ f with length := len &&& 9223372036854775807 }, s)

/-- Embeds Go `frame.readMaskKey`: read the 4-byte key when masked. -/
def frame.readMaskKey (f : frame) (s : List Nat) : Except ReadErr (frame × List Nat) :=
  if f.masked = false then .ok (f, s)
  else
    match readFromBuffer 4 s with
    | none => .error .io
    | some (p, s) => .ok ({ f with key := p }, s)

/-- Embeds Go `frame.readPayload`: read `length` bytes and unmask if masked. -/
def frame.readPayload (f : frame) (s : List Nat) : Except ReadErr (frame × List Nat) :=
  match readFromBuffer f.length s with
  | none => .error .io
  | some (p, s) =>
    let p := if f.masked then mask p f.key else p
    .ok ({ f with payload := p }, s)

/-- Embeds Go `newFrame`: run the four read stages in order over the byte
stream, starting from the zero-valued frame. -/
def newFrame (s : List Nat) : Except ReadErr (frame × List Nat) :=
  match frame.readInitial { fin := false, opcode := 0, masked := false,
                            length := 0, key := [], payload := [] } s with
  | .error e => .error e
  | .ok (f, s) =>
    match f.readLength s with
    | .error e => .error e
    | .ok (f, s) =>
      match f.readMaskKey s with
      | .error e => .error e
      | .ok (f, s) => f.readPayload s

/-- Embeds Go `frame.validate`. -/
def frame.validate (f : frame) : Option CloseError :=
  if opcodeExist f.opcode = false then
    some { Code := CloseProtocolError,
           Reason := "unsupported opcode: " ++ toString f.opcode }
  else if validateKey f.key = false then
    some { Code := CloseProtocolError,
           Reason := "masking key must either be 0 or 4 bytes long" }
  else if validatePayload f.payload = false then
    some { Code := CloseMessageTooBig, Reason := "maximum payload data exceeded" }
  else none

/-- Embeds Go `frame.toBytesFin`: the FIN contribution to byte 0. -/
def frame.toBytesFin (f : frame) : Nat :=
  if f.fin then 128 else 0

/-- Embeds Go `frame.toBytesMasked`: the MASK contribution to byte 1, computed
from the key, not from `f.masked`. -/
def frame.toBytesMasked (f : frame) : Nat :=
  if f.key.length != 0 then 128 else 0

/-- Embeds Go `frame.toBytesPayloadLength`: the 7-bit length marker, computed
from the payload, not from `f.length`. -/
def frame.toBytesPayloadLength (f : frame) : Nat :=
  let l := f.payload.length
  if l ≤ 125 then l
  else if l ≤ 65535 then 126
  else if l ≤ 9223372036854775807 then 127
  else 0

/-- Embeds Go `frame.toBytesPayloadLengthExt`: the extended payload length
bytes (2 or 8, big-endian); the `%` mirrors the Go `uint16`/`uint64`
conversions. -/
def frame.toBytesPayloadLengthExt (f : frame) : List Nat :=
  let l := f.payload.length
  if l ≤ 125 then []
  else if l ≤ 65535 then beBytes 2 (l % 65536)
  else if l ≤ 9223372036854775807 then beBytes 8 (l % 18446744073709551616)
  else []

/-- Embeds Go `frame.toBytesPayloadData`: the emitted payload bytes.  The Go
code first copies the payload (`append([]byte\x7b\x7d, f.payload...)`) and masks
the copy when a 4-byte key is present. -/
def frame.toBytesPayloadData (f : frame) : List Nat :=
  let p := f.payload
  if f.key.length == 4 then mask p f.key else p

/-- Embeds Go `frame.toBytes`: validate, then emit the two header bytes, the
extended length, the key and the (masked) payload. -/
def frame.toBytes (f : frame) : Except CloseError (List Nat) :=
  match f.validate with
  | some e => .error e
  | none =>
    .ok ((f.toBytesFin + f.opcode) ::
         (f.toBytesMasked + f.toBytesPayloadLength) ::
         (f.toBytesPayloadLengthExt ++ f.key ++ f.toBytesPayloadData))

/-! ## Chunked execution model of `readFromBuffer` (utils.go)

The Go function reads from a `bufio.Reader`.  Each `b.Read(t)` with `len(t) =
l` returns some `1 ≤ i ≤ min l remaining` bytes; `rs` is the schedule of sizes
the underlying connection delivers (each call's result is capped at `l` and at
the bytes still available).  `buffered` is the number of bytes initially held
in the `bufio` internal buffer (the fast path). -/

/-- Result of a chunked `readFromBuffer` run: success, an underlying I/O error
(the stream was exhausted), or the read schedule ran out with the loop still
running (the loop has not terminated within `rs.length` reads). -/
inductive ReadRes where
  | ok : List Nat → ReadRes
  | ioErr : ReadRes
  | outOfFuel : ReadRes
deriving DecidableEq, Repr

/-- The accumulation loop of Go `readFromBuffer`: keep calling `b.Read` on a
fresh `l`-byte slice, appending the `i` bytes read, until the running total
`n` equals `l` exactly. -/
def readLoop (l : Nat) (bs : List Nat) (rs : List Nat) (n : Nat) (acc : List Nat) : ReadRes :=
  match rs with
  | [] => .outOfFuel
  | r :: rs' =>
    if bs.isEmpty then .ioErr
    else
      let i := min (min r l) bs.length
      if n + i = l then .ok (acc ++ bs.take i)
      else readLoop l (bs.drop i) rs' (n + i) (acc ++ bs.take i)

/-- Chunk-level model of Go `readFromBuffer`: if the internal buffer already
holds `l` bytes, one read returns the first `l` bytes; otherwise the
accumulation loop runs. -/
def readFromBufferChunked (bs : List Nat) (buffered : Nat) (rs : List Nat) (l : Nat) : ReadRes :=
  if l ≤ buffered then .ok (bs.take l) else readLoop l bs rs 0 []

/-- The run of `readFromBuffer` requesting 3 bytes from a source that keeps
delivering bytes in chunks of 2, then 3, then 1, 1, 1, ...: for every schedule
length the loop is still running, i.e. the call never returns. -/
def readFromBufferDiverges : Prop :=
  ∀ fuel : Nat,
    readFromBufferChunked (List.range (6 + fuel)) 0 (2 :: 3 :: List.replicate fuel 1) 3
      = .outOfFuel

/-! ## Slice-store model of payload encoding (frame.go, `toBytesPayloadData`)

Go's `mask` mutates the byte slice passed to it in place.  To state that the
encoder leaves `f.payload` untouched, byte arrays live in a store and slices
are indices into it. -/

/-- A store of byte arrays; a Go byte slice is an index into it. -/
abbrev Store : Type := List (List Nat)

/-- In-place `mask` on the array at index `i` of the store. -/
def maskStore (h : Store) (i : Nat) (k : List Nat) : Store :=
  List.set h i (mask (List.getD h i []) k)

/-- `append([]byte\x7b\x7d, src...)`: allocate a fresh array holding a copy of
the array at `src`; returns the store and the new array's index. -/
def appendFresh (h : Store) (src : Nat) : Store × Nat :=
  (h ++ [List.getD h src []], h.length)

/-- Store-level embedding of Go `frame.toBytesPayloadData`: copy the payload
array, mask the copy in place when a 4-byte key is present, and return the
final store together with the emitted bytes. -/
def toBytesPayloadDataStore (h : Store) (payloadRef : Nat) (key : List Nat) :
    Store × List Nat :=
  let hp := appendFresh h payloadRef
  let h1 := hp.1
  let p := hp.2
  let h2 := if key.length == 4 then maskStore h1 p key else h1
  (h2, List.getD h2 p [])

/-! ## Client URL parsing (dialer_utils.go) -/

/-- Embeds Go `schemeValid`. -/
def schemeValid (s : String) : Bool :=
  s == "ws" || s == "wss"

/-- The Go port check `regexp.MustCompile(":(\\d+)").FindStringSubmatch(host)`
finds a match exactly when some `:` in the host is immediately followed by a
decimal digit. -/
def hasPortMatch : List Char → Bool
  | [] => false
  | c :: rest =>
    (c == ':' && (match rest with
                  | d :: _ => d.isDigit
                  | [] => false)) || hasPortMatch rest

/-- Embeds Go `parseURLHost`: reject invalid schemes; leave the host alone
when the port regex matches; otherwise append the scheme's default port
(`:22` for ws, `:443` for wss). -/
def parseURLHost (scheme host : String) : Except String String :=
  if schemeValid scheme = false then .error ("invalid scheme: " ++ scheme)
  else if hasPortMatch host.data then .ok host
  else if scheme == "ws" then .ok (host ++ ":22")
  else if scheme == "wss" then .ok (host ++ ":443")
  else .ok host

/-- The spec's side condition, stated from its words: the host ends in a
`:PORT` suffix, i.e. a colon followed by one or more digits reaching the end
of the host. -/
def hasPortSuffixSpec (host : String) : Bool :=
  let r := host.data.reverse
  let ds := r.takeWhile Char.isDigit
  !ds.isEmpty && ((r.drop ds.length).head? == some ':')

/-! ## Client handshake response validation (dialer_utils.go) -/

/-- Embeds the Go `OpenError` struct. -/
structure OpenError where
  Reason : String
deriving DecidableEq, Repr

/-- Go `strings.ToLower` restricted to the ASCII header values compared by the
validators. -/
def toLowerStr (s : String) : String :=
  ⟨s.data.map Char.toLower⟩

/-- Go `strings.Trim(v, " ")`: strip leading and trailing spaces. -/
def trimSpaces (s : String) : String :=
  ⟨((s.data.dropWhile (· == ' ')).reverse.dropWhile (· == ' ')).reverse⟩

/-- Go `strings.Split(v, ",")` on the character list: split at every comma. -/
def splitOnComma : List Char → List (List Char)
  | [] => [[]]
  | c :: rest =>
    match splitOnComma rest with
    | [] => [[]]
    | h :: t => if c == ',' then [] :: h :: t else (c :: h) :: t

/-- Embeds Go `headerToSlice`: split a multi-valued header on commas and trim
spaces. -/
def headerToSlice (v : String) : List String :=
  (splitOnComma v.data).map (fun cs => trimSpaces (String.mk cs))

/-- The fields of the server's handshake `http.Response` (and, through
`r.Request`, of the client request that produced it) that the validators
inspect. -/
structure HandshakeResponse where
  StatusCode : Nat
  upgradeHeader : String
  connectionHeader : String
  secWebSocketAccept : String
  secWebSocketProtocol : String
  requestSecWebSocketKey : String
  requestSecWebSocketProtocol : String
deriving DecidableEq, Repr

/-- Embeds Go `validateResponseStatus`. -/
def validateResponseStatus (r : HandshakeResponse) : Option OpenError :=
  if r.StatusCode ≠ 101 then some { Reason := "http status not 101" } else none

/-- Embeds Go `validateResponseUpgradeHeader`. -/
def validateResponseUpgradeHeader (r : HandshakeResponse) : Option OpenError :=
  if toLowerStr r.upgradeHeader ≠ "websocket" then
    some { Reason := "\"Upgrade\" Header should have the value of \"websocket\"" }
  else none

/-- Embeds Go `validateResponseConnectionHeader`. -/
def validateResponseConnectionHeader (r : HandshakeResponse) : Option OpenError :=
  if toLowerStr r.connectionHeader ≠ "upgrade" then
    some { Reason := "\"Connection\" Header should have the value of \"upgrade\"" }
  else none

/-- Embeds Go `validateResponseSecWebsocketAcceptHeader`, parameterized by the
accept-key derivation `makeAcceptKey` (SHA-1 and Base64 are external
primitives; the validator only compares strings). -/
def validateResponseSecWebsocketAcceptHeader (makeAcceptKey : String → String)
    (r : HandshakeResponse) : Option OpenError :=
  if r.secWebSocketAccept ≠ makeAcceptKey r.requestSecWebSocketKey then
    some { Reason := "challenge key failure" }
  else none

/-- Embeds Go `validateResponse`: exactly the four validators the source
registers, in order.  (`validateResponseSecWebsocketProtocol` is not among
them.) -/
def validateResponse (makeAcceptKey : String → String)
    (r : HandshakeResponse) : Option OpenError :=
  match validateResponseStatus r with
  | some e => some e
  | none =>
    match validateResponseUpgradeHeader r with
    | some e => some e
    | none =>
      match validateResponseConnectionHeader r with
      | some e => some e
      | none => validateResponseSecWebsocketAcceptHeader makeAcceptKey r

/-- Embeds Go `validateResponseSecWebsocketProtocol`: if the server echoed a
subprotocol, it must occur in the list the client advertised. -/
def validateResponseSecWebsocketProtocol (r : HandshakeResponse) : Option OpenError :=
  let c := headerToSlice r.requestSecWebSocketProtocol
  let s := r.secWebSocketProtocol
  if s.length == 0 then none
  else if c.contains s then none
  else
    some { Reason := "server choose a sub protocol which was not in the list sent by the client" }

/-! ## Socket state machine (socket.go)

The socket's mutable fields (`state`, `closeError`) are threaded explicitly;
the effects on the transport (frames flushed, the TCP close, the CloseHandler
invocation) are recorded as a list of events.  The outcome of `buf.Flush()`
and the random mask key `randomByteSlice(1)` are external inputs and appear
as parameters. -/

/-- Socket states, as in the Go constant block. -/
def stateOpened : Nat := 0

def stateClosing : Nat := 1

def stateClosed : Nat := 2

/-- An error memoed in `closeError`: a `CloseError`, or an underlying
transport error (identified by a number). -/
inductive SockErr where
  | ce : CloseError → SockErr
  | io : Nat → SockErr
deriving DecidableEq, Repr

/-- Observable effects of socket operations. -/
inductive Event where
  | wroteFrame : Nat → List Nat → Event
  | transportClosed : Event
  | closeHandler : Option SockErr → Event
deriving DecidableEq, Repr

/-- The state-machine fields of the Go `Socket` struct that the modeled
operations read and write. -/
structure Socket where
  server : Bool
  state : Nat
  closeError : Option SockErr
deriving DecidableEq, Repr

/-- Errors `Socket.Write` returns to its caller. -/
inductive WriteErr where
  | socketClosed : WriteErr
  | encodeErr : CloseError → WriteErr
deriving DecidableEq, Repr

/-- Embeds Go `Socket.TCPClose`: no-op when already closed; otherwise set the
state to closed, close the transport and invoke the close handler with the
memoed error. -/
def Socket.TCPClose (s : Socket) : Socket × List Event :=
  if s.state == stateClosed then (s, [])
  else ({ s with state := stateClosed },
        [.transportClosed, .closeHandler s.closeError])

/-- Embeds Go `Socket.Write`.  `key` is the random 4-byte mask key
`randomByteSlice(1)` would produce (used only for client sockets); `flushRes`
is the outcome of `buf.Flush()` (`none` = success, `some n` = the flush
error).  Returns the error handed to the caller, the new socket state and the
emitted events. -/
def Socket.Write (s : Socket) (o : Nat) (p : List Nat) (key : List Nat)
    (flushRes : Option Nat) : Option WriteErr × Socket × List Event :=
  if s.state == stateClosed then (some .socketClosed, s, [])
  else
    let f : frame := { fin := true, opcode := o, masked := false, length := 0,
                       key := if s.server then [] else key, payload := p }
    match f.toBytes with
    | .error e => (some (.encodeErr e), s, [])
    | .ok _ =>
      match flushRes with
      | some n =>
        let s := { s with closeError := some (.io n) }
        let r := s.TCPClose
        (none, r.1, .wroteFrame o p :: r.2)
      | none =>
        let s := if o == OpcodeClose then { s with state := stateClosing } else s
        (none, s, [.wroteFrame o p])

/-- Embeds Go `Socket.CloseWithError`: memo the error, encode it (the
`ToBytes` error is discarded) and send it as a close frame. -/
def Socket.CloseWithError (s : Socket) (e : CloseError) (key : List Nat)
    (flushRes : Option Nat) : Socket × List Event :=
  let s := { s with closeError := some (.ce e) }
  let r := s.Write OpcodeClose (e.ToBytes).1 key flushRes
  (r.2.1, r.2.2)

/-- Embeds Go `Socket.Close`. -/
def Socket.Close (s : Socket) (key : List Nat) (flushRes : Option Nat) :
    Socket × List Event :=
  s.CloseWithError { Code := CloseNormalClosure, Reason := "normal closure" } key flushRes

/-- A socket operation from the public surface, with its external inputs. -/
inductive Op where
  | write : Nat → List Nat → List Nat → Option Nat → Op
  | tcpClose : Op
  | closeWithError : CloseError → List Nat → Option Nat → Op
  | close : List Nat → Option Nat → Op
deriving Repr

/-- Run one socket operation. -/
def runOp (s : Socket) : Op → Socket × List Event
  | .write o p key fr =>
    let r := s.Write o p key fr
    (r.2.1, r.2.2)
  | .tcpClose => s.TCPClose
  | .closeWithError e key fr => s.CloseWithError e key fr
  | .close key fr => s.Close key fr

/-- Run a sequence of socket operations, collecting all events. -/
def runOps (s : Socket) : List Op → Socket × List Event
  | [] => (s, [])
  | op :: ops =>
    let r := runOp s op
    let r' := runOps r.1 ops
    (r'.1, r.2 ++ r'.2)

/-- Whether an event is an invocation of the CloseHandler. -/
def isCloseHandlerEv : Event → Bool
  | .closeHandler _ => true
  | _ => false

/-- Number of CloseHandler invocations in an event trace. -/
def chCount (evs : List Event) : Nat :=
  (evs.filter isCloseHandlerEv).length

/-! ## General helper lemmas -/

theorem readFromBuffer_append (a b : List Nat) (n : Nat) (h : a.length = n) :
    readFromBuffer n (a ++ b) = some (a, b) := by
  unfold readFromBuffer
  have hle : n ≤ (a ++ b).length := by
    rw [List.length_append]
    omega
  rw [if_pos hle, List.take_left' h, List.drop_left' h]

theorem readFromBuffer_all (a : List Nat) (n : Nat) (h : a.length = n) :
    readFromBuffer n a = some (a, []) := by
  have := readFromBuffer_append a [] n h
  simpa using this

theorem maskAux_length (k : List Nat) (i : Nat) (p : List Nat) :
    (maskAux k i p).length = p.length := by
  induction p generalizing i with
  | nil => rfl
  | cons v rest ih => simp [maskAux, ih]

theorem mask_length (p k : List Nat) : (mask p k).length = p.length :=
  maskAux_length k 0 p

theorem maskAux_maskAux (k : List Nat) (i : Nat) (p : List Nat) :
    maskAux k i (maskAux k i p) = p := by
  induction p generalizing i with
  | nil => rfl
  | cons v rest ih => simp [maskAux, Nat.xor_cancel_right, ih]

theorem mask_mask (p k : List Nat) : mask (mask p k) k = p :=
  maskAux_maskAux k 0 p

theorem beBytes_length (k n : Nat) : (beBytes k n).length = k := by
  induction k generalizing n with
  | zero => rfl
  | succ k ih => simp [beBytes, ih]

theorem foldl_shift_eq_foldl_mul (u : List Nat) (a : Nat) :
    u.foldl (fun acc v => (acc <<< 8) + v) a = u.foldl (fun acc v => 256 * acc + v) a := by
  induction u generalizing a with
  | nil => rfl
  | cons v rest ih =>
    simp only [List.foldl_cons, ih, Nat.shiftLeft_eq]
    norm_num [Nat.mul_comm]

theorem foldl_mul_beBytes (k n a : Nat) (h : n < 256 ^ k) :
    (beBytes k n).foldl (fun acc v => 256 * acc + v) a = a * 256 ^ k + n := by
  induction k generalizing n a with
  | zero =>
    interval_cases n
    simp [beBytes]
  | succ k ih =>
    have hdiv : n / 256 < 256 ^ k := by
      rw [Nat.div_lt_iff_lt_mul (by norm_num)]
      calc n < 256 ^ (k + 1) := h
      _ = 256 ^ k * 256 := by ring
    simp only [beBytes, List.foldl_append, ih (n / 256) a hdiv, List.foldl_cons,
      List.foldl_nil]
    have hmod := Nat.div_add_mod n 256
    ring_nf
    omega

theorem and_sixty_three_ones (n : Nat) :
    n &&& 9223372036854775807 = n % 9223372036854775808 := by
  have := Nat.and_pow_two_sub_one_eq_mod n 63
  norm_num at this
  exact this

theorem and_seven_ones (n : Nat) : n &&& 127 = n % 128 := by
  have := Nat.and_pow_two_sub_one_eq_mod n 7
  norm_num at this
  exact this

/-! ## Claim C8 (parseURLHost default ports) -/

/-- C8, counterexample: the host `[::1]` has no `:PORT` suffix, yet
`parseURLHost` leaves it unchanged (no `:22` appended), because the Go port
regexp `:(\d+)` matches the `:1` inside the IPv6 literal. -/
theorem parseURLHost_no_port_suffix_counterexample :
    parseURLHost "ws" "[::1]" = .ok "[::1]" ∧
    hasPortSuffixSpec "[::1]" = false ∧
    ("[::1]" : String) ≠ "[::1]" ++ ":22" := by
  refine ⟨by rfl, by decide, by decide⟩

/-- C8, amended: for a valid scheme, `parseURLHost` appends the default port
(`:22` for ws, `:443` for wss) exactly when no colon in the host is
immediately followed by a digit (the Go regexp check); when such a match
exists anywhere in the host, the host is returned unchanged. -/
theorem parseURLHost_default_port (scheme host : String)
    (hs : schemeValid scheme = true) :
    (hasPortMatch host.data = false →
       parseURLHost scheme host =
         .ok (host ++ (if scheme == "ws" then ":22" else ":443"))) ∧
    (hasPortMatch host.data = true → parseURLHost scheme host = .ok host) := by
  have hcases : scheme = "ws" ∨ scheme = "wss" := by
    rcases Bool.or_eq_true _ _ |>.mp hs with h | h
    · exact Or.inl (by simpa using h)
    · exact Or.inr (by simpa using h)
  constructor
  · intro h
    rcases hcases with rfl | rfl <;> simp [parseURLHost, schemeValid, h]
  · intro h
    rcases hcases with rfl | rfl <;> simp [parseURLHost, schemeValid, h]

/-- C8 witness: concrete applications of both directions. -/
theorem parseURLHost_default_port_witness :
    parseURLHost "ws" "example.com" = .ok ("example.com" ++ ":22") ∧
    parseURLHost "wss" "example.com:8080" = .ok "example.com:8080" := by
  constructor
  · have := (parseURLHost_default_port "ws" "example.com" (by decide)).1 (by decide)
    simpa using this
  · exact (parseURLHost_default_port "wss" "example.com:8080" (by decide)).2 (by decide)

/-! ## Claim C2 (CloseError.ToBytes fallback for invalid codes) -/

/-- Shared helper: `ToBytes` on an unrecognized code yields the fallback
bytes for code 1005 with the library's reason string, and signals the
"invalid error code" error. -/
theorem closeError_toBytes_of_invalid (c : CloseError)
    (h : closeErrorExist c.Code = false) :
    c.ToBytes = ([3, 237] ++ strBytes "no status recieved", some "invalid error code") := by
  unfold CloseError.ToBytes
  rw [h]
  rfl

/-- C2, counterexample: for the invalid code 0 the emitted reason bytes are
those of the string "no status recieved" (the library's spelling), not of
"no status received" as the claim states. -/
theorem closeError_toBytes_spelling_counterexample :
    ((CloseError.mk 0 "woops").ToBytes).1 ≠ [3, 237] ++ strBytes "no status received" := by
  decide

/-- C2, amended: for every CloseError whose code is not in the recognized
set, `ToBytes` signals an error to the caller and returns the bytes
`0x03 0xED` (code 1005, big-endian) followed by the UTF-8 bytes of the reason
string "no status recieved" (sic, the library's spelling). -/
theorem closeError_toBytes_invalid_code (c : CloseError)
    (h : closeErrorExist c.Code = false) :
    ((c.ToBytes).1 = [3, 237] ++ strBytes "no status recieved") ∧
    (c.ToBytes).2 = some "invalid error code" := by
  rw [closeError_toBytes_of_invalid c h]
  exact ⟨rfl, rfl⟩

/-- C2 witness: the amended claim at the concrete CloseError `{0, "woops"}`. -/
theorem closeError_toBytes_invalid_code_witness :
    (((CloseError.mk 0 "woops").ToBytes).1 = [3, 237] ++ strBytes "no status recieved") ∧
    ((CloseError.mk 0 "woops").ToBytes).2 = some "invalid error code" :=
  closeError_toBytes_invalid_code (CloseError.mk 0 "woops") (by decide)

/-! ## Claim C3 (response validation does not check the subprotocol) -/

/-- Shared helper: `validateResponseSecWebsocketProtocol` depends only on the
two protocol headers. -/
theorem validateResponseSecWebsocketProtocol_eq (r : HandshakeResponse)
    (c s : String) (hc : r.requestSecWebSocketProtocol = c)
    (hs : r.secWebSocketProtocol = s) :
    validateResponseSecWebsocketProtocol r =
      (if s.length == 0 then none
       else if (headerToSlice c).contains s then none
       else some { Reason := "server choose a sub protocol which was not in the list sent by the client" }) := by
  unfold validateResponseSecWebsocketProtocol
  rw [hc, hs]

/-- C3: for every accept-key derivation, the handshake response that passes the
four registered validators but echoes the subprotocol "v2" — which the client
(having advertised "client, v1") never offered — is accepted by
`validateResponse`, even though the (never invoked)
`validateResponseSecWebsocketProtocol` rejects it.  Hence `Dial`, which
validates with `validateResponse` only, accepts such a response. -/
theorem validateResponse_accepts_unadvertised_subprotocol
    (makeAcceptKey : String → String) :
    validateResponse makeAcceptKey
      { StatusCode := 101, upgradeHeader := "websocket",
        connectionHeader := "upgrade",
        secWebSocketAccept := makeAcceptKey "dGhlIHNhbXBsZSBub25jZQ==",
        secWebSocketProtocol := "v2",
        requestSecWebSocketKey := "dGhlIHNhbXBsZSBub25jZQ==",
        requestSecWebSocketProtocol := "client, v1" } = none ∧
    validateResponseSecWebsocketProtocol
      { StatusCode := 101, upgradeHeader := "websocket",
        connectionHeader := "upgrade",
        secWebSocketAccept := makeAcceptKey "dGhlIHNhbXBsZSBub25jZQ==",
        secWebSocketProtocol := "v2",
        requestSecWebSocketKey := "dGhlIHNhbXBsZSBub25jZQ==",
        requestSecWebSocketProtocol := "client, v1" } =
      some { Reason := "server choose a sub protocol which was not in the list sent by the client" } := by
  constructor
  · unfold validateResponse
    have h1 : validateResponseStatus
        { StatusCode := 101, upgradeHeader := "websocket",
          connectionHeader := "upgrade",
          secWebSocketAccept := makeAcceptKey "dGhlIHNhbXBsZSBub25jZQ==",
          secWebSocketProtocol := "v2",
          requestSecWebSocketKey := "dGhlIHNhbXBsZSBub25jZQ==",
          requestSecWebSocketProtocol := "client, v1" } = none := by
      unfold validateResponseStatus
      exact if_neg (show ¬(101 ≠ 101) by decide)
    have h2 : validateResponseUpgradeHeader
        { StatusCode := 101, upgradeHeader := "websocket",
          connectionHeader := "upgrade",
          secWebSocketAccept := makeAcceptKey "dGhlIHNhbXBsZSBub25jZQ==",
          secWebSocketProtocol := "v2",
          requestSecWebSocketKey := "dGhlIHNhbXBsZSBub25jZQ==",
          requestSecWebSocketProtocol := "client, v1" } = none := by
      unfold validateResponseUpgradeHeader
      exact if_neg (show ¬(toLowerStr "websocket" ≠ "websocket") by decide)
    have h3 : validateResponseConnectionHeader
        { StatusCode := 101, upgradeHeader := "websocket",
          connectionHeader := "upgrade",
          secWebSocketAccept := makeAcceptKey "dGhlIHNhbXBsZSBub25jZQ==",
          secWebSocketProtocol := "v2",
          requestSecWebSocketKey := "dGhlIHNhbXBsZSBub25jZQ==",
          requestSecWebSocketProtocol := "client, v1" } = none := by
      unfold validateResponseConnectionHeader
      exact if_neg (show ¬(toLowerStr "upgrade" ≠ "upgrade") by decide)
    have h4 : validateResponseSecWebsocketAcceptHeader makeAcceptKey
        { StatusCode := 101, upgradeHeader := "websocket",
          connectionHeader := "upgrade",
          secWebSocketAccept := makeAcceptKey "dGhlIHNhbXBsZSBub25jZQ==",
          secWebSocketProtocol := "v2",
          requestSecWebSocketKey := "dGhlIHNhbXBsZSBub25jZQ==",
          requestSecWebSocketProtocol := "client, v1" } = none := by
      unfold validateResponseSecWebsocketAcceptHeader
      exact if_neg (fun hne => hne rfl)
    rw [h1, h2, h3, h4]
  · rw [validateResponseSecWebsocketProtocol_eq _ "client, v1" "v2" rfl rfl]
    decide

/-! ## Socket state-machine lemmas and claims C6, C7, C10 -/

theorem chCount_append (a b : List Event) :
    chCount (a ++ b) = chCount a + chCount b := by
  simp [chCount, List.filter_append]

theorem state_beq_closed_false {s : Socket} (h : s.state ≠ stateClosed) :
    (s.state == stateClosed) = false :=
  beq_eq_false_iff_ne.mpr h

/-- C6: on a socket that is not closed, when the frame encodes successfully
but the flush fails, `Write` memoes the flush error into `closeError`, tears
the transport down (invoking the CloseHandler with that error) and returns
`nil` to its caller. -/
theorem socket_write_flush_failure (s : Socket) (o : Nat) (p key : List Nat)
    (n : Nat) (hs : s.state ≠ stateClosed)
    (henc : (frame.mk true o false 0 (if s.server then [] else key) p).validate = none) :
    s.Write o p key (some n) =
      (none, { s with state := stateClosed, closeError := some (.io n) },
       [.wroteFrame o p, .transportClosed, .closeHandler (some (.io n))]) := by
  unfold Socket.Write Socket.TCPClose frame.toBytes
  simp [state_beq_closed_false hs, henc]

/-- C6 witness. -/
theorem socket_write_flush_failure_witness :
    (Socket.mk true stateOpened none).Write OpcodeText [1, 2] [] (some 7) =
      (none, Socket.mk true stateClosed (some (.io 7)),
       [.wroteFrame OpcodeText [1, 2], .transportClosed, .closeHandler (some (.io 7))]) :=
  socket_write_flush_failure (Socket.mk true stateOpened none) OpcodeText [1, 2] [] 7
    (by decide) (by decide)

theorem runOp_closed (s : Socket) (op : Op) (h : s.state = stateClosed) :
    (runOp s op).1.state = stateClosed ∧ chCount (runOp s op).2 = 0 := by
  have hb : (s.state == stateClosed) = true := by rw [h]; rfl
  cases op with
  | write o p key fr =>
    simp [runOp, Socket.Write, hb, chCount, h]
  | tcpClose =>
    simp [runOp, Socket.TCPClose, hb, chCount, h]
  | closeWithError e key fr =>
    simp [runOp, Socket.CloseWithError, Socket.Write, hb, chCount, h]
  | close key fr =>
    simp [runOp, Socket.Close, Socket.CloseWithError, Socket.Write, hb, chCount, h]

theorem write_chCount (s : Socket) (o : Nat) (p key : List Nat) (fr : Option Nat) :
    chCount (s.Write o p key fr).2.2 = 0 ∨
    (chCount (s.Write o p key fr).2.2 = 1 ∧
     (s.Write o p key fr).2.1.state = stateClosed) := by
  by_cases hb : (s.state == stateClosed) = true
  · left
    simp [Socket.Write, hb, chCount]
  · rw [Bool.not_eq_true] at hb
    unfold Socket.Write Socket.TCPClose
    cases htb : (frame.mk true o false 0 (if s.server then [] else key) p).toBytes with
    | error e =>
      left
      simp [hb, htb, chCount]
    | ok b =>
      cases fr with
      | some n =>
        right
        simp [hb, htb, chCount, isCloseHandlerEv]
      | none =>
        left
        simp [hb, htb, chCount, isCloseHandlerEv]

theorem runOp_chCount (s : Socket) (op : Op) :
    chCount (runOp s op).2 = 0 ∨
    (chCount (runOp s op).2 = 1 ∧ (runOp s op).1.state = stateClosed) := by
  cases op with
  | write o p key fr => exact write_chCount s o p key fr
  | tcpClose =>
    by_cases hb : (s.state == stateClosed) = true
    · left
      simp [runOp, Socket.TCPClose, hb, chCount]
    · right
      rw [Bool.not_eq_true] at hb
      simp [runOp, Socket.TCPClose, hb, chCount, isCloseHandlerEv]
  | closeWithError e key fr =>
    have := write_chCount { s with closeError := some (.ce e) } OpcodeClose
      (e.ToBytes).1 key fr
    simpa [runOp, Socket.CloseWithError] using this
  | close key fr =>
    have := write_chCount
      { s with closeError := some (.ce { Code := CloseNormalClosure, Reason := "normal closure" }) }
      OpcodeClose (CloseError.ToBytes { Code := CloseNormalClosure, Reason := "normal closure" }).1 key fr
    simpa [runOp, Socket.Close, Socket.CloseWithError] using this

/-- C7: once the state is Closed, `TCPClose` is a no-op (the transport is not
closed again and the CloseHandler is not invoked again); consequently, over
any sequence of socket operations the CloseHandler is invoked at most once
(and not at all when the socket starts out Closed). -/
theorem socket_tcpClose_noop_closeHandler_once :
    (∀ s : Socket, s.state = stateClosed → s.TCPClose = (s, [])) ∧
    (∀ (s : Socket) (ops : List Op),
       chCount (runOps s ops).2 ≤ if s.state = stateClosed then 0 else 1) := by
  constructor
  · intro s h
    unfold Socket.TCPClose
    rw [if_pos (by rw [h]; rfl)]
  · intro s ops
    induction ops generalizing s with
    | nil =>
      simp only [runOps, chCount, List.filter_nil, List.length_nil]
      split <;> omega
    | cons op ops ih =>
      have hsplit : chCount (runOps s (op :: ops)).2 =
          chCount (runOp s op).2 + chCount (runOps (runOp s op).1 ops).2 := by
        simp only [runOps]
        exact chCount_append _ _
      rw [hsplit]
      by_cases h : s.state = stateClosed
      · obtain ⟨h1, h2⟩ := runOp_closed s op h
        have hr := ih (runOp s op).1
        rw [if_pos h1] at hr
        rw [if_pos h]
        omega
      · rw [if_neg h]
        rcases runOp_chCount s op with h0 | ⟨h1, h2⟩
        · have hr := ih (runOp s op).1
          have : chCount (runOps (runOp s op).1 ops).2 ≤ 1 := by
            rcases em ((runOp s op).1.state = stateClosed) with hc | hc
            · rw [if_pos hc] at hr
              omega
            · rw [if_neg hc] at hr
              omega
          omega
        · have hr := ih (runOp s op).1
          rw [if_pos h2] at hr
          omega

/-- C7 witness: `TCPClose` on an already-closed socket is a no-op. -/
theorem socket_tcpClose_noop_witness :
    (Socket.mk true stateClosed (some (.io 3))).TCPClose =
      (Socket.mk true stateClosed (some (.io 3)), []) :=
  socket_tcpClose_noop_closeHandler_once.1 (Socket.mk true stateClosed (some (.io 3))) rfl

/-- C10: `CloseWithError` on an invalid-code CloseError still writes a Close
frame whose payload is the fallback encoding for code 1005, discards the
`ToBytes` error, reports nothing to its caller, and memoes the original
invalid-code error (not the 1005 substitute) for the CloseHandler. -/
theorem socket_closeWithError_invalid_code (s : Socket) (e : CloseError)
    (key : List Nat) (hs : s.state ≠ stateClosed)
    (hc : closeErrorExist e.Code = false)
    (hk : validateKey (if s.server then [] else key) = true) :
    s.CloseWithError e key none =
      ({ s with closeError := some (.ce e), state := stateClosing },
       [.wroteFrame OpcodeClose ([3, 237] ++ strBytes "no status recieved")]) ∧
    (e.ToBytes).2 = some "invalid error code" ∧
    (some (SockErr.ce e) : Option SockErr) ≠
      some (.ce { Code := CloseNoStatusReceived, Reason := "no status recieved" }) := by
  have htb := closeError_toBytes_of_invalid e hc
  refine ⟨?_, by rw [htb], ?_⟩
  · have hop : opcodeExist OpcodeClose = true := by decide
    have hvp : validatePayload (3 :: 237 :: strBytes "no status recieved") = true := by decide
    have henc : (frame.mk true OpcodeClose false 0 (if s.server then [] else key)
        ([3, 237] ++ strBytes "no status recieved")).validate = none := by
      unfold frame.validate
      simp [hop, hvp, hk]
    unfold Socket.CloseWithError Socket.Write frame.toBytes
    rw [htb]
    simp only [List.cons_append, List.nil_append] at henc
    simp [state_beq_closed_false hs, henc]
  · intro h
    have he : e = { Code := CloseNoStatusReceived, Reason := "no status recieved" } := by
      have := Option.some.injEq _ _ ▸ h
      cases e
      cases this
      rfl
    rw [he] at hc
    exact absurd hc (by decide)

/-- C10 witness. -/
theorem socket_closeWithError_invalid_code_witness :
    (Socket.mk true stateOpened none).CloseWithError (CloseError.mk 0 "woops") [] none =
      (Socket.mk true stateClosing (some (.ce (CloseError.mk 0 "woops"))),
       [.wroteFrame OpcodeClose ([3, 237] ++ strBytes "no status recieved")]) ∧
    ((CloseError.mk 0 "woops").ToBytes).2 = some "invalid error code" ∧
    (some (SockErr.ce (CloseError.mk 0 "woops")) : Option SockErr) ≠
      some (.ce { Code := CloseNoStatusReceived, Reason := "no status recieved" }) :=
  socket_closeWithError_invalid_code (Socket.mk true stateOpened none)
    (CloseError.mk 0 "woops") [] (by decide) (by decide) (by decide)

/-! ## Claim C9 (the encoder does not mutate the payload) -/

/-- C9: in the slice-store model of `toBytesPayloadData`, the payload array is
unchanged by the call, and the emitted bytes are exactly what the pure
encoder produces — the masked form of the payload when a 4-byte key is
present. -/
theorem toBytesPayloadData_preserves_payload (h : Store) (r : Nat)
    (key : List Nat) (hr : r < h.length) :
    ((toBytesPayloadDataStore h r key).1.getD r [] = h.getD r []) ∧
    ((toBytesPayloadDataStore h r key).2 =
       (frame.mk true OpcodeText false 0 key (h.getD r [])).toBytesPayloadData) := by
  have hgetr : (h ++ [h.getD r []]).getD r [] = h.getD r [] :=
    List.getD_append _ _ _ _ hr
  have hgetp : (h ++ [h.getD r []]).getD h.length [] = h.getD r [] := by
    rw [List.getD_eq_getElem?_getD, List.getElem?_concat_length]
    rfl
  by_cases hk : (key.length == 4) = true
  · constructor
    · simp only [toBytesPayloadDataStore, appendFresh, maskStore, hk, if_pos]
      rw [List.getD_eq_getElem?_getD, List.getElem?_set_ne (by omega),
        ← List.getD_eq_getElem?_getD]
      exact hgetr
    · simp only [toBytesPayloadDataStore, appendFresh, maskStore, hk, if_pos]
      rw [List.getD_eq_getElem?_getD,
        List.getElem?_set_self (by simp)]
      simp only [Option.getD_some]
      rw [hgetp]
      simp [frame.toBytesPayloadData, hk]
  · constructor
    · simp only [toBytesPayloadDataStore, appendFresh, maskStore, hk, if_neg,
        Bool.false_eq_true, if_false]
      exact hgetr
    · simp only [toBytesPayloadDataStore, appendFresh, maskStore, hk,
        Bool.false_eq_true, if_false]
      rw [hgetp]
      simp [frame.toBytesPayloadData, hk]

/-- C9 witness: a store with one 3-byte payload and a 4-byte key. -/
theorem toBytesPayloadData_preserves_payload_witness :
    ((toBytesPayloadDataStore [[1, 2, 3]] 0 [5, 6, 7, 8]).1.getD 0 [] =
       List.getD [[1, 2, 3]] 0 []) ∧
    ((toBytesPayloadDataStore [[1, 2, 3]] 0 [5, 6, 7, 8]).2 =
       (frame.mk true OpcodeText false 0 [5, 6, 7, 8]
          (List.getD [[1, 2, 3]] 0 [])).toBytesPayloadData) :=
  toBytesPayloadData_preserves_payload [[1, 2, 3]] 0 [5, 6, 7, 8] (by decide)

/-! ## Claim C4 (readFromBuffer exact-length read) -/

theorem readLoop_stuck_replicate (k : Nat) :
    ∀ (bs : List Nat) (n : Nat) (acc : List Nat), 3 < n → k ≤ bs.length →
      readLoop 3 bs (List.replicate k 1) n acc = .outOfFuel := by
  induction k with
  | zero =>
    intro bs n acc _ _
    simp [List.replicate, readLoop]
  | succ k ih =>
    intro bs n acc hn hlen
    have hne : bs ≠ [] := by
      intro h
      rw [h] at hlen
      simp at hlen
    unfold readLoop
    rw [List.replicate_succ]
    simp only [List.isEmpty_eq_false.mpr hne, Bool.false_eq_true, if_false]
    have hmin : min (min 1 3) bs.length = 1 := by
      have : 1 ≤ bs.length := by
        cases bs with
        | nil => exact absurd rfl hne
        | cons a l => simp
      simp [Nat.min_eq_left, this]
    rw [hmin]
    rw [if_neg (by omega)]
    exact ih (bs.drop 1) (n + 1) _ (by omega) (by rw [List.length_drop]; omega)

/-- C4: requesting 3 bytes from a source that has already delivered at least
3 bytes, but in chunks of 2 then 3 (then 1, 1, ...), makes the accumulated
count jump from 2 to 5, so the loop's `n == l` exit is never reached: for
every schedule length the call is still running, and on the 6-byte source it
consumes everything and fails with the I/O error instead of returning the
first 3 bytes. -/
theorem readFromBuffer_overshoot_diverges :
    readFromBufferDiverges ∧
    readFromBufferChunked (List.range 6) 0 [2, 3, 1, 1] 3 = .ioErr ∧
    3 ≤ (List.range 6).length := by
  refine ⟨?_, by decide, by decide⟩
  intro fuel
  unfold readFromBufferChunked
  rw [if_neg (by omega)]
  unfold readLoop
  have h1 : (List.range (6 + fuel)).isEmpty = false :=
    List.isEmpty_eq_false.mpr (by simp)
  rw [h1]
  simp only [Bool.false_eq_true, if_false]
  have hm1 : min (min 2 3) (List.range (6 + fuel)).length = 2 := by
    rw [List.length_range]
    omega
  rw [hm1, if_neg (by omega)]
  unfold readLoop
  have h2 : ((List.range (6 + fuel)).drop 2).isEmpty = false := by
    rw [List.isEmpty_eq_false]
    intro h
    rw [List.drop_eq_nil_iff, List.length_range] at h
    omega
  rw [h2]
  simp only [Bool.false_eq_true, if_false]
  have hm2 : min (min 3 3) ((List.range (6 + fuel)).drop 2).length = 3 := by
    rw [List.length_drop, List.length_range]
    omega
  rw [hm2, if_neg (by omega)]
  exact readLoop_stuck_replicate fuel _ 5 _ (by omega)
    (by rw [List.length_drop, List.length_drop, List.length_range]; omega)

/-! ## Frame-decode stage lemmas (shared) -/

theorem readLength_small (f : frame) (s : List Nat) (h : f.length ≤ 125) :
    f.readLength s = .ok (f, s) := by
  unfold frame.readLength
  rw [if_pos h]

theorem readLength_two (f : frame) (a b : Nat) (rest : List Nat)
    (h : f.length = 126) :
    f.readLength (a :: b :: rest) =
      .ok ({ f with length := (256 * a + b) % 9223372036854775808 }, rest) := by
  unfold frame.readLength
  rw [h, if_neg (by omega)]
  simp only [Nat.reduceBEq, Bool.false_eq_true, if_false]
  rw [show ((a : Nat) :: b :: rest) = [a, b] ++ rest from rfl,
    readFromBuffer_append [a, b] rest 2 rfl]
  simp only [List.foldl_cons, List.foldl_nil]
  rw [and_sixty_three_ones]
  norm_num [Nat.shiftLeft_eq]
  ring_nf

theorem readLength_eight (f : frame) (u rest : List Nat) (h : f.length = 127)
    (hu : u.length = 8) :
    f.readLength (u ++ rest) =
      .ok ({ f with length := (u.foldl (fun acc v => 256 * acc + v) 0) %
                             9223372036854775808 }, rest) := by
  unfold frame.readLength
  rw [h, if_neg (by omega)]
  simp only [Nat.reduceBEq, if_true]
  rw [readFromBuffer_append u rest 8 hu]
  simp only []
  rw [foldl_shift_eq_foldl_mul, and_sixty_three_ones]

/-! ## Claim C5 (payload length parsing) -/

/-- C5: a 7-bit marker at most 125 is the final length and consumes nothing;
marker 126 reads 2 further bytes interpreted big-endian (0xFF 0xFF giving
65535); marker 127 reads 8 further bytes big-endian with bit 63 cleared
(eight 0xFF giving 2^63 - 1). -/
theorem frame_readLength_semantics :
    (∀ (f : frame) (s : List Nat), f.length ≤ 125 → f.readLength s = .ok (f, s)) ∧
    (∀ (f : frame) (a b : Nat) (rest : List Nat),
       f.length = 126 → a < 256 → b < 256 →
       f.readLength (a :: b :: rest) = .ok ({ f with length := 256 * a + b }, rest)) ∧
    ((frame.mk false 1 false 126 [] []).readLength [255, 255] =
       .ok (frame.mk false 1 false 65535 [] [], [])) ∧
    (∀ (f : frame) (u rest : List Nat), f.length = 127 → u.length = 8 →
       f.readLength (u ++ rest) =
         .ok ({ f with length := (u.foldl (fun acc v => 256 * acc + v) 0) % 2 ^ 63 },
              rest)) ∧
    ((frame.mk false 1 false 127 [] []).readLength (List.replicate 8 255) =
       .ok (frame.mk false 1 false 9223372036854775807 [] [], [])) := by
  refine ⟨readLength_small, ?_, ?_, ?_, ?_⟩
  · intro f a b rest h ha hb
    rw [readLength_two f a b rest h, Nat.mod_eq_of_lt (by omega)]
  · have := readLength_two (frame.mk false 1 false 126 [] []) 255 255 [] rfl
    simpa using this
  · intro f u rest h hu
    rw [readLength_eight f u rest h hu]
    norm_num
  · have := readLength_eight (frame.mk false 1 false 127 [] [])
      (List.replicate 8 255) [] rfl (by decide)
    simp only [List.append_nil] at this
    rw [this]
    have hv : List.foldl (fun acc v => 256 * acc + v) 0 (List.replicate 8 255) %
        9223372036854775808 = 9223372036854775807 := by decide
    rw [hv]

/-- C5 witness: concrete applications of the three parametric conjuncts. -/
theorem frame_readLength_semantics_witness :
    ((frame.mk true 2 false 100 [] []).readLength [9] =
       .ok (frame.mk true 2 false 100 [] [], [9])) ∧
    ((frame.mk true 2 false 126 [] []).readLength [1, 4, 9] =
       .ok (frame.mk true 2 false 260 [] [], [9])) ∧
    ((frame.mk true 2 false 127 [] []).readLength [0, 0, 0, 0, 0, 0, 1, 4, 9] =
       .ok (frame.mk true 2 false 260 [] [], [9])) := by
  refine ⟨frame_readLength_semantics.1 _ _ (by decide), ?_, ?_⟩
  · have := frame_readLength_semantics.2.1 (frame.mk true 2 false 126 [] [])
      1 4 [9] rfl (by omega) (by omega)
    simpa using this
  · have := frame_readLength_semantics.2.2.2.1 (frame.mk true 2 false 127 [] [])
      [0, 0, 0, 0, 0, 0, 1, 4] [9] rfl (by decide)
    simp only [List.cons_append, List.nil_append] at this
    rw [this]
    norm_num

theorem readFromBuffer_two (x y : Nat) (rest : List Nat) :
    readFromBuffer 2 (x :: y :: rest) = some ([x, y], rest) :=
  readFromBuffer_append [x, y] rest 2 rfl

theorem opcodeExist_cases (op : Nat) (h : opcodeExist op = true) :
    op = 0 ∨ op = 1 ∨ op = 2 ∨ op = 8 ∨ op = 9 ∨ op = 10 := by
  simp [opcodeExist, OpcodeContinuation, OpcodeText, OpcodeBinary,
    OpcodeClose, OpcodePing, OpcodePong] at h
  tauto

theorem readInitial_encode (fin mbit : Bool) (op marker : Nat) (rest : List Nat)
    (hop : opcodeExist op = true) (hm : marker ≤ 127) :
    frame.readInitial (frame.mk false 0 false 0 [] [])
      (((if fin then 128 else 0) + op) :: ((if mbit then 128 else 0) + marker) :: rest)
      = .ok (frame.mk fin op mbit marker [] [], rest) := by
  have hs1 : (128 + marker) >>> 7 = 1 := by
    rw [Nat.shiftRight_eq_div_pow]
    exact Nat.div_eq_of_lt_le (by norm_num) (by norm_num; omega)
  have hs0 : marker >>> 7 = 0 := by
    rw [Nat.shiftRight_eq_div_pow]
    exact Nat.div_eq_of_lt (by norm_num; omega)
  have ha1 : (128 + marker) &&& 127 = marker := by
    rw [and_seven_ones, Nat.add_mod_left, Nat.mod_eq_of_lt (by omega)]
  have ha0 : marker &&& 127 = marker := by
    rw [and_seven_ones, Nat.mod_eq_of_lt (by omega)]
  rcases opcodeExist_cases op hop with rfl | rfl | rfl | rfl | rfl | rfl <;>
    cases fin <;> cases mbit <;>
      simp [frame.readInitial, readFromBuffer_two, hs1, hs0, ha1, ha0, opcodeExist,
        OpcodeContinuation, OpcodeText, OpcodeBinary, OpcodeClose, OpcodePing,
        OpcodePong] <;> rfl

theorem readLength_ext (f : frame) (k n : Nat) (rest : List Nat)
    (hm : f.length = 126 ∧ k = 2 ∨ f.length = 127 ∧ k = 8) (hn : n < 256 ^ k) :
    f.readLength (beBytes k n ++ rest) =
      .ok ({ f with length := n % 9223372036854775808 }, rest) := by
  have hfold : (beBytes k n).foldl (fun acc v => 256 * acc + v) 0 = n := by
    have := foldl_mul_beBytes k n 0 hn
    simpa using this
  rcases hm with ⟨h126, rfl⟩ | ⟨h127, rfl⟩
  · unfold frame.readLength
    rw [h126, if_neg (by omega)]
    simp only [Nat.reduceBEq, Bool.false_eq_true, if_false]
    rw [readFromBuffer_append _ rest 2 (beBytes_length 2 n)]
    simp only []
    rw [foldl_shift_eq_foldl_mul, hfold, and_sixty_three_ones]
  · unfold frame.readLength
    rw [h127, if_neg (by omega)]
    simp only [Nat.reduceBEq, if_true]
    rw [readFromBuffer_append _ rest 8 (beBytes_length 8 n)]
    simp only []
    rw [foldl_shift_eq_foldl_mul, hfold, and_sixty_three_ones]

theorem readMaskKey_unmasked (f : frame) (s : List Nat) (h : f.masked = false) :
    f.readMaskKey s = .ok (f, s) := by
  unfold frame.readMaskKey
  rw [h]
  simp

theorem readMaskKey_masked (f : frame) (k rest : List Nat) (h : f.masked = true)
    (hk : k.length = 4) :
    f.readMaskKey (k ++ rest) = .ok ({ f with key := k }, rest) := by
  unfold frame.readMaskKey
  rw [h]
  simp only [Bool.true_eq_false, if_false]
  rw [readFromBuffer_append k rest 4 hk]

theorem readPayload_all (f : frame) (p : List Nat) (hl : p.length = f.length) :
    f.readPayload p =
      .ok ({ f with payload := if f.masked then mask p f.key else p }, []) := by
  unfold frame.readPayload
  rw [readFromBuffer_all p _ hl]

theorem toBytes_ok (f : frame) (hval : f.validate = none) :
    f.toBytes = .ok ((f.toBytesFin + f.opcode) ::
      (f.toBytesMasked + f.toBytesPayloadLength) ::
      (f.toBytesPayloadLengthExt ++ f.key ++ f.toBytesPayloadData)) := by
  unfold frame.toBytes
  rw [hval]

/-! ## Claim C1 (encode/decode round-trip) -/

/-- C1: for every frame with a defined opcode, a key of length 0 or 4 and a
payload of at most 2^63 - 1 bytes, decoding the bytes produced by `toBytes`
with `newFrame` consumes the whole stream and restores the frame's `fin`,
`opcode`, `key` and `payload` fields (the redundant `length` and `masked`
fields are not compared). -/
theorem frame_toBytes_newFrame_roundtrip (f : frame)
    (h1 : opcodeExist f.opcode = true) (h2 : validateKey f.key = true)
    (h3 : f.payload.length ≤ 9223372036854775807) :
    ∃ b g, f.toBytes = .ok b ∧ newFrame b = .ok (g, []) ∧
      g.fin = f.fin ∧ g.opcode = f.opcode ∧ g.key = f.key ∧ g.payload = f.payload := by
  have hvp : validatePayload f.payload = true := by
    unfold validatePayload
    exact decide_eq_true h3
  have hval : f.validate = none := by
    unfold frame.validate
    rw [h1, h2, hvp]
    simp
  have hE := toBytes_ok f hval
  unfold frame.toBytesFin at hE
  have hkey : f.key.length = 0 ∨ f.key.length = 4 := by
    rcases Bool.or_eq_true _ _ |>.mp h2 with h | h
    · exact Or.inl (by simpa using h)
    · exact Or.inr (by simpa using h)
  rcases hkey with hk0 | hk4
  · -- unmasked frame: empty key
    have hknil : f.key = [] := List.eq_nil_of_length_eq_zero hk0
    have hmaskedb : f.toBytesMasked = 0 := by
      unfold frame.toBytesMasked
      rw [hk0]
      rfl
    have hpd : f.toBytesPayloadData = f.payload := by
      simp [frame.toBytesPayloadData, hk0]
    rcases le_or_lt f.payload.length 125 with hA | hgtA
    · -- short payload
      have hmk : f.toBytesPayloadLength = f.payload.length := by
        unfold frame.toBytesPayloadLength
        rw [if_pos hA]
      have hext : f.toBytesPayloadLengthExt = [] := by
        unfold frame.toBytesPayloadLengthExt
        rw [if_pos hA]
      rw [hmaskedb, hmk, hext, hpd, hknil] at hE
      simp only [List.nil_append, Nat.zero_add] at hE
      have s1 := readInitial_encode f.fin false f.opcode f.payload.length
        f.payload h1 (by omega)
      simp only [Bool.false_eq_true, if_false, Nat.zero_add] at s1
      have s2 := readLength_small
        (frame.mk f.fin f.opcode false f.payload.length [] []) f.payload hA
      have s3 := readMaskKey_unmasked
        (frame.mk f.fin f.opcode false f.payload.length [] []) f.payload rfl
      have s4 : (frame.mk f.fin f.opcode false f.payload.length [] []).readPayload
          f.payload =
          .ok (frame.mk f.fin f.opcode false f.payload.length [] f.payload, []) := by
        rw [readPayload_all _ _ rfl]
        simp
      refine ⟨_, frame.mk f.fin f.opcode false f.payload.length [] f.payload,
        hE, ?_, rfl, rfl, hknil.symm, rfl⟩
      simp only [newFrame, s1, s2, s3, s4]
    · rcases le_or_lt f.payload.length 65535 with hB | hgtB
      · -- two-byte extended length
        have hmk : f.toBytesPayloadLength = 126 := by
          unfold frame.toBytesPayloadLength
          rw [if_neg (by omega), if_pos hB]
        have hext : f.toBytesPayloadLengthExt = beBytes 2 f.payload.length := by
          unfold frame.toBytesPayloadLengthExt
          rw [if_neg (by omega), if_pos hB, Nat.mod_eq_of_lt (by omega)]
        rw [hmaskedb, hmk, hext, hpd, hknil] at hE
        simp only [List.append_nil, List.nil_append, Nat.zero_add] at hE
        have s1 := readInitial_encode f.fin false f.opcode 126
          (beBytes 2 f.payload.length ++ f.payload) h1 (by omega)
        simp only [Bool.false_eq_true, if_false, Nat.zero_add] at s1
        have s2 : (frame.mk f.fin f.opcode false 126 [] []).readLength
            (beBytes 2 f.payload.length ++ f.payload) =
            .ok (frame.mk f.fin f.opcode false f.payload.length [] [], f.payload) := by
          rw [readLength_ext _ 2 f.payload.length f.payload (Or.inl ⟨rfl, rfl⟩)
            (by omega)]
          rw [Nat.mod_eq_of_lt (by omega)]
        have s3 := readMaskKey_unmasked
          (frame.mk f.fin f.opcode false f.payload.length [] []) f.payload rfl
        have s4 : (frame.mk f.fin f.opcode false f.payload.length [] []).readPayload
            f.payload =
            .ok (frame.mk f.fin f.opcode false f.payload.length [] f.payload, []) := by
          rw [readPayload_all _ _ rfl]
          simp
        refine ⟨_, frame.mk f.fin f.opcode false f.payload.length [] f.payload,
          hE, ?_, rfl, rfl, hknil.symm, rfl⟩
        simp only [newFrame, s1, s2, s3, s4]
      · -- eight-byte extended length
        have hmk : f.toBytesPayloadLength = 127 := by
          unfold frame.toBytesPayloadLength
          rw [if_neg (by omega), if_neg (by omega), if_pos h3]
        have hext : f.toBytesPayloadLengthExt = beBytes 8 f.payload.length := by
          unfold frame.toBytesPayloadLengthExt
          rw [if_neg (by omega), if_neg (by omega), if_pos h3,
            Nat.mod_eq_of_lt (by omega)]
        rw [hmaskedb, hmk, hext, hpd, hknil] at hE
        simp only [List.append_nil, List.nil_append, Nat.zero_add] at hE
        have s1 := readInitial_encode f.fin false f.opcode 127
          (beBytes 8 f.payload.length ++ f.payload) h1 (by omega)
        simp only [Bool.false_eq_true, if_false, Nat.zero_add] at s1
        have s2 : (frame.mk f.fin f.opcode false 127 [] []).readLength
            (beBytes 8 f.payload.length ++ f.payload) =
            .ok (frame.mk f.fin f.opcode false f.payload.length [] [], f.payload) := by
          rw [readLength_ext _ 8 f.payload.length f.payload (Or.inr ⟨rfl, rfl⟩)
            (by norm_num; omega)]
          rw [Nat.mod_eq_of_lt (by omega)]
        have s3 := readMaskKey_unmasked
          (frame.mk f.fin f.opcode false f.payload.length [] []) f.payload rfl
        have s4 : (frame.mk f.fin f.opcode false f.payload.length [] []).readPayload
            f.payload =
            .ok (frame.mk f.fin f.opcode false f.payload.length [] f.payload, []) := by
          rw [readPayload_all _ _ rfl]
          simp
        refine ⟨_, frame.mk f.fin f.opcode false f.payload.length [] f.payload,
          hE, ?_, rfl, rfl, hknil.symm, rfl⟩
        simp only [newFrame, s1, s2, s3, s4]
  · -- masked frame: 4-byte key
    have hmaskedb : f.toBytesMasked = 128 := by
      unfold frame.toBytesMasked
      rw [hk4]
      rfl
    have hpd : f.toBytesPayloadData = mask f.payload f.key := by
      simp [frame.toBytesPayloadData, hk4]
    have hml : (mask f.payload f.key).length = f.payload.length := mask_length _ _
    rcases le_or_lt f.payload.length 125 with hA | hgtA
    · have hmk : f.toBytesPayloadLength = f.payload.length := by
        unfold frame.toBytesPayloadLength
        rw [if_pos hA]
      have hext : f.toBytesPayloadLengthExt = [] := by
        unfold frame.toBytesPayloadLengthExt
        rw [if_pos hA]
      rw [hmaskedb, hmk, hext, hpd] at hE
      simp only [List.nil_append] at hE
      have s1 := readInitial_encode f.fin true f.opcode f.payload.length
        (f.key ++ mask f.payload f.key) h1 (by omega)
      simp only [eq_self_iff_true, if_true] at s1
      have s2 := readLength_small
        (frame.mk f.fin f.opcode true f.payload.length [] [])
        (f.key ++ mask f.payload f.key) hA
      have s3 := readMaskKey_masked
        (frame.mk f.fin f.opcode true f.payload.length [] [])
        f.key (mask f.payload f.key) rfl hk4
      have s4 : (frame.mk f.fin f.opcode true f.payload.length f.key []).readPayload
          (mask f.payload f.key) =
          .ok (frame.mk f.fin f.opcode true f.payload.length f.key f.payload, []) := by
        rw [readPayload_all _ _ hml]
        simp [mask_mask]
      refine ⟨_, frame.mk f.fin f.opcode true f.payload.length f.key f.payload,
        hE, ?_, rfl, rfl, rfl, rfl⟩
      simp only [newFrame, s1, s2, s3, s4]
    · rcases le_or_lt f.payload.length 65535 with hB | hgtB
      · have hmk : f.toBytesPayloadLength = 126 := by
          unfold frame.toBytesPayloadLength
          rw [if_neg (by omega), if_pos hB]
        have hext : f.toBytesPayloadLengthExt = beBytes 2 f.payload.length := by
          unfold frame.toBytesPayloadLengthExt
          rw [if_neg (by omega), if_pos hB, Nat.mod_eq_of_lt (by omega)]
        rw [hmaskedb, hmk, hext, hpd] at hE
        simp only [List.append_assoc] at hE
        have s1 := readInitial_encode f.fin true f.opcode 126
          (beBytes 2 f.payload.length ++ (f.key ++ mask f.payload f.key)) h1 (by omega)
        simp only [eq_self_iff_true, if_true] at s1
        have s2 : (frame.mk f.fin f.opcode true 126 [] []).readLength
            (beBytes 2 f.payload.length ++ (f.key ++ mask f.payload f.key)) =
            .ok (frame.mk f.fin f.opcode true f.payload.length [] [],
                 f.key ++ mask f.payload f.key) := by
          rw [readLength_ext _ 2 f.payload.length _ (Or.inl ⟨rfl, rfl⟩) (by omega)]
          rw [Nat.mod_eq_of_lt (by omega)]
        have s3 := readMaskKey_masked
          (frame.mk f.fin f.opcode true f.payload.length [] [])
          f.key (mask f.payload f.key) rfl hk4
        have s4 : (frame.mk f.fin f.opcode true f.payload.length f.key []).readPayload
            (mask f.payload f.key) =
            .ok (frame.mk f.fin f.opcode true f.payload.length f.key f.payload, []) := by
          rw [readPayload_all _ _ hml]
          simp [mask_mask]
        refine ⟨_, frame.mk f.fin f.opcode true f.payload.length f.key f.payload,
          hE, ?_, rfl, rfl, rfl, rfl⟩
        simp only [newFrame, s1, s2, s3, s4]
      · have hmk : f.toBytesPayloadLength = 127 := by
          unfold frame.toBytesPayloadLength
          rw [if_neg (by omega), if_neg (by omega), if_pos h3]
        have hext : f.toBytesPayloadLengthExt = beBytes 8 f.payload.length := by
          unfold frame.toBytesPayloadLengthExt
          rw [if_neg (by omega), if_neg (by omega), if_pos h3,
            Nat.mod_eq_of_lt (by omega)]
        rw [hmaskedb, hmk, hext, hpd] at hE
        simp only [List.append_assoc] at hE
        have s1 := readInitial_encode f.fin true f.opcode 127
          (beBytes 8 f.payload.length ++ (f.key ++ mask f.payload f.key)) h1 (by omega)
        simp only [eq_self_iff_true, if_true] at s1
        have s2 : (frame.mk f.fin f.opcode true 127 [] []).readLength
            (beBytes 8 f.payload.length ++ (f.key ++ mask f.payload f.key)) =
            .ok (frame.mk f.fin f.opcode true f.payload.length [] [],
                 f.key ++ mask f.payload f.key) := by
          rw [readLength_ext _ 8 f.payload.length _ (Or.inr ⟨rfl, rfl⟩)
            (by norm_num; omega)]
          rw [Nat.mod_eq_of_lt (by omega)]
        have s3 := readMaskKey_masked
          (frame.mk f.fin f.opcode true f.payload.length [] [])
          f.key (mask f.payload f.key) rfl hk4
        have s4 : (frame.mk f.fin f.opcode true f.payload.length f.key []).readPayload
            (mask f.payload f.key) =
            .ok (frame.mk f.fin f.opcode true f.payload.length f.key f.payload, []) := by
          rw [readPayload_all _ _ hml]
          simp [mask_mask]
        refine ⟨_, frame.mk f.fin f.opcode true f.payload.length f.key f.payload,
          hE, ?_, rfl, rfl, rfl, rfl⟩
        simp only [newFrame, s1, s2, s3, s4]

/-- C1 witness: round-trip of a concrete masked Text frame. -/
theorem frame_toBytes_newFrame_roundtrip_witness :
    ∃ b g, (frame.mk true 1 false 0 [5, 6, 7, 8] [10, 20, 30]).toBytes = .ok b ∧
      newFrame b = .ok (g, []) ∧ g.fin = true ∧ g.opcode = 1 ∧
      g.key = [5, 6, 7, 8] ∧ g.payload = [10, 20, 30] :=
  frame_toBytes_newFrame_roundtrip (frame.mk true 1 false 0 [5, 6, 7, 8] [10, 20, 30])
    (by decide) (by decide) (by decide)
